import Mathlib

/-!
# Verification of the Panel Coordinate & Defect Aggregation Engine

Shallow embedding of the core algorithms of the AOI defect-inspection
dashboard: the layout calculator (`src/layout.py`), the coordinate
transformer and panel store (`src/models.py`, `src/data_handler.py`),
and the aggregation functions (`src/analysis/calculations.py`).

Python floats are modelled as rationals (`ℚ`), integer dataframe columns
as `ℤ`, and dataframes as lists of records.  All definitions follow the
source code; the few places where pandas library semantics (histogram2d,
groupby, stable sort) are modelled by explicit counting/sorting are noted
in comments.
-/

namespace AOI

/-! ## Layout Calculator (src/layout.py, class LayoutParams) -/

structure LayoutParams where
  panel_cols : ℤ
  panel_rows : ℤ
  quad_width : ℚ
  quad_height : ℚ
  margin_x : ℚ
  margin_y : ℚ
  gap_mid : ℚ
  gap_unit : ℚ

namespace LayoutParams

/-- `LayoutParams.unit_width`: `(quad_width - (panel_cols - 1) * gap_unit) / panel_cols`,
guarded to return `0.0` when `panel_cols ≤ 0`. -/
def unit_width (p : LayoutParams) : ℚ :=
  if p.panel_cols ≤ 0 then 0
  else (p.quad_width - ((p.panel_cols : ℚ) - 1) * p.gap_unit) / (p.panel_cols : ℚ)

/-- `LayoutParams.unit_height`, symmetric to `unit_width`. -/
def unit_height (p : LayoutParams) : ℚ :=
  if p.panel_rows ≤ 0 then 0
  else (p.quad_height - ((p.panel_rows : ℚ) - 1) * p.gap_unit) / (p.panel_rows : ℚ)

/-- `LayoutParams.get_unit_origin`: bottom-left coordinate of a unit cell,
following the two-branch quadrant logic of the source. -/
def get_unit_origin (p : LayoutParams) (col_index row_index : ℤ) : ℚ × ℚ :=
  let start_x : ℚ := if col_index < p.panel_cols then p.margin_x
    else p.margin_x + p.quad_width + p.gap_mid
  let local_col : ℤ := if col_index < p.panel_cols then col_index
    else col_index - p.panel_cols
  let start_y : ℚ := if row_index < p.panel_rows then p.margin_y
    else p.margin_y + p.quad_height + p.gap_mid
  let local_row : ℤ := if row_index < p.panel_rows then row_index
    else row_index - p.panel_rows
  let final_x : ℚ := start_x + ((local_col : ℚ) * p.unit_width) + ((local_col : ℚ) * p.gap_unit)
  let final_y : ℚ := start_y + ((local_row : ℚ) * p.unit_height) + ((local_row : ℚ) * p.gap_unit)
  (final_x, final_y)

/-- `LayoutParams.get_physical_extent`: full canvas width/height. -/
def get_physical_extent (p : LayoutParams) : ℚ × ℚ :=
  (p.margin_x + p.quad_width + p.gap_mid + p.quad_width + p.margin_x,
   p.margin_y + p.quad_height + p.gap_mid + p.quad_height + p.margin_y)

end LayoutParams

/-! ## Back-side mirroring (src/data_handler.py load_data lines 152-161,
and src/models.py `_add_plotting_coordinates` lines 149-164) -/

inductive Side where
  | F
  | B
deriving DecidableEq, Repr

/-- `PHYSICAL_X` computation of `load_data`: for side `'B'`,
`(2 * panel_cols - 1) - UNIT_INDEX_X`; otherwise the raw index. -/
def physical_x_of (panel_cols : ℤ) (side : Side) (unit_index_x : ℤ) : ℤ :=
  match side with
  | AOI.Side.B => (2 * panel_cols - 1) - unit_index_x
  | AOI.Side.F => unit_index_x

/-! ## Data model: defect records and the panel store
(src/models.py, src/data_handler.py) -/

/-- One row of a (combined) defect dataframe.  Field names follow the
dataframe column names of the source.  `QUADRANT` is the string column added
by `BuildUpLayer._add_plotting_coordinates`; `PHYSICAL_X` is the mirrored
column added by `load_data`. -/
structure Record where
  UNIT_INDEX_X : ℤ
  UNIT_INDEX_Y : ℤ
  DEFECT_TYPE : String
  Verification : String
  LAYER_NUM : ℤ
  SIDE : Side
  PHYSICAL_X : ℤ
  QUADRANT : String
deriving DecidableEq, Repr

/-- Code-point lexicographic comparison of character lists, modelling
Python's (and pandas') string ordering. -/
def charListLe : List Char → List Char → Bool
  | [], _ => true
  | _ :: _, [] => false
  | a :: as, b :: bs => if a < b then true else if b < a then false else charListLe as bs

/-- The string order used wherever pandas sorts string keys. -/
def string_le (a b : String) : Prop := charListLe a.data b.data = true

instance string_le_decidable : DecidableRel string_le := fun a b => by
  unfold string_le
  infer_instance

instance string_le_total : IsTotal String string_le where
  total a b := by
    unfold string_le
    suffices h : ∀ as bs : List Char, charListLe as bs = true ∨ charListLe bs as = true from
      h a.data b.data
    intro as
    induction as with
    | nil =>
        intro bs
        left
        rfl
    | cons a as ih =>
        intro bs
        cases bs with
        | nil =>
            right
            rfl
        | cons b bs =>
            by_cases h1 : a < b
            · left
              simp [charListLe, h1]
            · by_cases h2 : b < a
              · right
                simp [charListLe, h2]
              · have hab : a = b := le_antisymm (not_lt.mp h2) (not_lt.mp h1)
                subst hab
                rcases ih bs with h | h
                · left
                  simp [charListLe, h, lt_irrefl]
                · right
                  simp [charListLe, h, lt_irrefl]

instance string_le_trans : IsTrans String string_le where
  trans a b c hab hbc := by
    unfold string_le at hab hbc ⊢
    revert hab hbc
    suffices h : ∀ as bs cs : List Char, charListLe as bs = true → charListLe bs cs = true →
        charListLe as cs = true from h a.data b.data c.data
    intro as
    induction as with
    | nil =>
        intro bs cs _ _
        rfl
    | cons a as ih =>
        intro bs cs h1 h2
        cases bs with
        | nil => simp [charListLe] at h1
        | cons b bs =>
            cases cs with
            | nil => simp [charListLe] at h2
            | cons c cs =>
                by_cases hab' : a < b
                · by_cases hbc' : b < c
                  · simp [charListLe, lt_trans hab' hbc']
                  · by_cases hcb : c < b
                    · simp [charListLe, hbc', hcb] at h2
                    · have hbce : b = c := le_antisymm (not_lt.mp hcb) (not_lt.mp hbc')
                      subst hbce
                      simp [charListLe, hab']
                · by_cases hba : b < a
                  · simp [charListLe, hab', hba] at h1
                  · have habe : a = b := le_antisymm (not_lt.mp hba) (not_lt.mp hab')
                    subst habe
                    simp only [charListLe, lt_irrefl, if_false] at h1
                    by_cases hac : a < c
                    · simp [charListLe, hac]
                    · by_cases hca : c < a
                      · simp [charListLe, hac, hca] at h2
                      · have hace : a = c := le_antisymm (not_lt.mp hca) (not_lt.mp hac)
                        subst hace
                        simp only [charListLe, lt_irrefl, if_false] at h2 ⊢
                        exact ih bs cs h1 h2

/-- Python `str.upper()` modelled structurally on the character list. -/
def pyUpper (s : String) : String := String.mk (s.data.map Char.toUpper)

/-- Python `str.strip()` modelled structurally on the character list. -/
def pyStrip (s : String) : String :=
  String.mk (((s.data.dropWhile Char.isWhitespace).reverse.dropWhile Char.isWhitespace).reverse)

/-- `SAFE_VERIFICATION_VALUES` from src/config.py. -/
def SAFE_VERIFICATION_VALUES : List String :=
  ["GE57", "N", "TA", "FALSE", "FALSE ALARM", "F"]

/-- `SAFE_VERIFICATION_VALUES_UPPER` from src/config.py. -/
def SAFE_VERIFICATION_VALUES_UPPER : List String :=
  SAFE_VERIFICATION_VALUES.map pyUpper

/-- The standing True-Defect classification used by every aggregation:
`~df['Verification'].isin(SAFE_VERIFICATION_VALUES_UPPER)`. -/
def is_true_defect (r : Record) : Bool :=
  !(SAFE_VERIFICATION_VALUES_UPPER.contains r.Verification)

/-- Per-record verification normalisation of `load_data`
(src/data_handler.py lines 117-132): when the `Verification` column is
missing the whole file gets the sentinel; when it is present, NaN is filled
with `'N'`, values are stripped and upper-cased, and an empty result is
replaced by `'N'`.  `raw = none` models a NaN cell. -/
def normalize_verification (has_verification_column : Bool) (raw : Option String) : String :=
  if has_verification_column then
    let filled := match raw with
      | none => "N"
      | some s => s
    let cleaned := pyUpper (pyStrip filled)
    if cleaned = "" then "N" else cleaned
  else "Under Verification"

/-- One `(layer_num, side)` record set (class BuildUpLayer, data only). -/
structure BuildUpLayer where
  layer_num : ℤ
  side : Side
  records : List Record
deriving DecidableEq, Repr

/-- `PanelData`: the store of all loaded layers. -/
abbrev PanelData : Type := List BuildUpLayer

/-- `PanelData.get_combined_dataframe`: concatenation of every layer's
records, tagged with `LAYER_NUM` and `SIDE` metadata; an optional
`filter_func` is applied per layer before concatenation. -/
def get_combined_dataframe (pd : PanelData)
    (filter_func : Option (List Record → List Record)) : List Record :=
  pd.flatMap fun L =>
    let df := L.records.map fun r => { r with LAYER_NUM := L.layer_num, SIDE := L.side }
    match filter_func with
    | none => df
    | some f => f df

/-- `PanelData.get_all_layer_nums`: the sorted distinct layer numbers of the
store (sorted keys of the internal dict). -/
def get_all_layer_nums (pd : PanelData) : List ℤ :=
  List.insertionSort (· ≤ ·) ((pd.map fun L => L.layer_num).dedup)

/-! ## FilterContext (src/analysis/calculations.py lines 15-24) -/

structure FilterContext where
  selected_layers : Option (List ℤ)
  selected_sides : Option (List Side)
  verification_filter : Option (List String)
  quadrant_filter : String
  excluded_layers : Option (List ℤ)
  excluded_defect_types : Option (List String)

/-- Python truthiness of an optional list (`if filter_context.xs:`):
`None` and the empty list both mean "no restriction". -/
def keep_if_truthy {α : Type} (o : Option (List α)) (f : List α → List Record → List Record)
    (df : List Record) : List Record :=
  match o with
  | none => df
  | some xs => if xs.isEmpty then df else f xs df

/-- `df[df['LAYER_NUM'].isin(selected_layers)]`. -/
def apply_selected_layers (o : Option (List ℤ)) (df : List Record) : List Record :=
  keep_if_truthy o (fun sel d => d.filter fun r => decide (r.LAYER_NUM ∈ sel)) df

/-- `df[df['SIDE'].isin(selected_sides)]`. -/
def apply_selected_sides (o : Option (List Side)) (df : List Record) : List Record :=
  keep_if_truthy o (fun sel d => d.filter fun r => decide (r.SIDE ∈ sel)) df

/-- `df[df['Verification'].isin(verification_filter)]`. -/
def apply_verification_filter (o : Option (List String)) (df : List Record) : List Record :=
  keep_if_truthy o (fun sel d => d.filter fun r => decide (r.Verification ∈ sel)) df

/-- `df[df['QUADRANT'] == quadrant_filter]` unless the filter is `"All"`. -/
def apply_quadrant_filter (q : String) (df : List Record) : List Record :=
  if q = "All" then df else df.filter fun r => r.QUADRANT == q

/-- `df[~df['LAYER_NUM'].isin(excluded_layers)]`. -/
def apply_excluded_layers (o : Option (List ℤ)) (df : List Record) : List Record :=
  keep_if_truthy o (fun ex d => d.filter fun r => decide (r.LAYER_NUM ∉ ex)) df

/-- `df[~df['Verification'].isin(excluded_defect_types)]` (the "What-If"
exclusion works on verification codes). -/
def apply_excluded_defect_types (o : Option (List String)) (df : List Record) : List Record :=
  keep_if_truthy o (fun ex d => d.filter fun r => decide (r.Verification ∉ ex)) df

/-! ## Grid Aggregator (src/analysis/calculations.py,
aggregate_stress_data_from_df lines 117-216) -/

/-- The `valid_mask` of `aggregate_stress_data_from_df`: coordinates inside
`[0, 2*panel_cols) × [0, 2*panel_rows)`. -/
def valid_records (df : List Record) (panel_rows panel_cols : ℕ) : List Record :=
  df.filter fun r => decide
    (0 ≤ r.UNIT_INDEX_X ∧ r.UNIT_INDEX_X < 2 * (panel_cols : ℤ) ∧
     0 ≤ r.UNIT_INDEX_Y ∧ r.UNIT_INDEX_Y < 2 * (panel_rows : ℤ))

/-- Records of one unit cell. -/
def cell_records (l : List Record) (x y : ℕ) : List Record :=
  l.filter fun r => decide (r.UNIT_INDEX_X = (x : ℤ) ∧ r.UNIT_INDEX_Y = (y : ℤ))

/-- The `np.histogram2d` count grid: integer samples with unit-width bins on
`[0, 2*panel_rows) × [0, 2*panel_cols)` count each in-bounds record in the
single cell `grid[y][x]` matching its coordinates. -/
def grid_counts_of (df : List Record) (panel_rows panel_cols : ℕ) : List (List ℕ) :=
  (List.range (2 * panel_rows)).map fun y =>
    (List.range (2 * panel_cols)).map fun x =>
      (cell_records (valid_records df panel_rows panel_cols) x y).length

/-- The distinct defect types of a cell in ascending string order — pandas
`groupby('DEFECT_TYPE', sort=True)` emits group keys in sorted order. -/
def cell_types (cell : List Record) : List String :=
  List.insertionSort string_le (cell.map fun r => r.DEFECT_TYPE).dedup

/-- `(type, count)` pairs of a cell, in ascending type order. -/
def type_count_pairs (cell : List Record) : List (String × ℕ) :=
  (cell_types cell).map fun t => (t, (cell.filter fun r => r.DEFECT_TYPE == t).length)

/-- Ranking order of the per-cell summary: higher count first, ties by
ascending defect type.  The source sorts the alphabetically-keyed groupby
output by `Count` descending with a stable sort, which (the types being
distinct) is exactly the unique (count desc, type asc) ordering. -/
def rank_le (a b : String × ℕ) : Prop :=
  b.2 < a.2 ∨ (a.2 = b.2 ∧ string_le a.1 b.1)

instance rank_le_decidable : DecidableRel rank_le := fun a b => by
  unfold rank_le
  infer_instance

instance rank_le_total : IsTotal (String × ℕ) rank_le where
  total a b := by
    unfold rank_le
    rcases lt_trichotomy a.2 b.2 with h | h | h
    · exact Or.inr (Or.inl h)
    · rcases string_le_total.total a.1 b.1 with h' | h'
      · exact Or.inl (Or.inr ⟨h, h'⟩)
      · exact Or.inr (Or.inr ⟨h.symm, h'⟩)
    · exact Or.inl (Or.inl h)

instance rank_le_trans : IsTrans (String × ℕ) rank_le where
  trans a b c hab hbc := by
    unfold rank_le at hab hbc ⊢
    rcases hab with h1 | ⟨h1, h1'⟩
    · rcases hbc with h2 | ⟨h2, _⟩
      · exact Or.inl (h2.trans h1)
      · exact Or.inl (h2 ▸ h1)
    · rcases hbc with h2 | ⟨h2, h2'⟩
      · exact Or.inl (h1 ▸ h2)
      · exact Or.inr ⟨h1.trans h2, string_le_trans.trans a.1 b.1 c.1 h1' h2'⟩

/-- The ranked per-cell defect-type list (count descending, ties by
ascending type). -/
def ranked_pairs (cell : List Record) : List (String × ℕ) :=
  List.insertionSort rank_le (type_count_pairs cell)

/-- The per-cell hover text: total, top-3 ranked type lines, and a
`(+N types)` suffix when more than 3 distinct types are present. -/
def cell_tooltip (cell : List Record) : String :=
  let pairs := type_count_pairs cell
  let top3 := (ranked_pairs cell).take 3
  let lines := top3.map fun p => p.1 ++ ": " ++ toString p.2
  let base := "<b>Total: " ++ toString cell.length ++ "</b><br>" ++
    String.intercalate "<br>" lines
  if 3 < pairs.length then
    base ++ "<br>... (+" ++ toString (pairs.length - 3) ++ " types)"
  else base

/-- The hover-text grid (initialised to `"No Defects"`, overwritten for
populated cells). -/
def hover_text_grid (df : List Record) (panel_rows panel_cols : ℕ) : List (List String) :=
  (List.range (2 * panel_rows)).map fun y =>
    (List.range (2 * panel_cols)).map fun x =>
      let cell := cell_records (valid_records df panel_rows panel_cols) x y
      if cell.isEmpty then "No Defects" else cell_tooltip cell

/-- `StressMapData` container (src/data_handler.py lines 60-66). -/
structure StressMapData where
  grid_counts : List (List ℕ)
  hover_text : List (List String)
  total_defects : ℕ
  max_count : ℕ
deriving DecidableEq, Repr

/-- `aggregate_stress_data_from_df`. -/
def aggregate_stress_data_from_df (df : List Record) (panel_rows panel_cols : ℕ) :
    StressMapData :=
  let grid := grid_counts_of df panel_rows panel_cols
  let total := (grid.map List.sum).sum
  { grid_counts := grid
    hover_text := hover_text_grid df panel_rows panel_cols
    total_defects := total
    max_count := if 0 < total then (grid.map fun row => row.foldr max 0).foldr max 0 else 0 }

/-! ## Cross-Section Matrix Builder (src/analysis/calculations.py,
get_cross_section_matrix lines 340-411) -/

/-- The coordinate a slice groups by: `UNIT_INDEX_X` for a `'Y'` (row)
slice, `UNIT_INDEX_Y` otherwise. -/
def target_coord (slice_axis : String) (r : Record) : ℤ :=
  if slice_axis = "Y" then r.UNIT_INDEX_X else r.UNIT_INDEX_Y

/-- The coordinate a slice fixes: `UNIT_INDEX_Y` for a `'Y'` (row) slice,
`UNIT_INDEX_X` otherwise. -/
def slice_coord (slice_axis : String) (r : Record) : ℤ :=
  if slice_axis = "Y" then r.UNIT_INDEX_Y else r.UNIT_INDEX_X

/-- The record set `get_cross_section_matrix` works on: combined dataframe,
context filters (layers, sides, verification), then the standing True-Defect
filter. -/
def cross_section_filtered (pd : PanelData) (ctx : Option FilterContext) : List Record :=
  let df := get_combined_dataframe pd none
  let df := match ctx with
    | none => df
    | some c =>
        apply_verification_filter c.verification_filter
          (apply_selected_sides c.selected_sides (apply_selected_layers c.selected_layers df))
  df.filter is_true_defect

/-- `get_cross_section_matrix`: returns `(matrix, layer_labels, axis_labels)`.
The matrix entry for layer row `i` and position `j` is the count of sliced
records with that layer number and target coordinate `j` (the source fills a
zero matrix from groupby counts, skipping coordinates outside
`[0, width_dim)`). -/
def get_cross_section_matrix (pd : PanelData) (slice_axis : String) (slice_index : ℤ)
    (panel_rows panel_cols : ℕ) (ctx : Option FilterContext) :
    List (List ℕ) × List String × List String :=
  let sorted_layers := get_all_layer_nums pd
  if sorted_layers.isEmpty then ([], [], [])
  else
    let width_dim := if slice_axis = "Y" then 2 * panel_cols else 2 * panel_rows
    let axis_labels := (List.range width_dim).map fun i => toString i
    let layer_labels := sorted_layers.map fun n => "L" ++ toString n
    let sliced := (cross_section_filtered pd ctx).filter fun r =>
      decide (slice_coord slice_axis r = slice_index)
    let matrix := sorted_layers.map fun ln =>
      (List.range width_dim).map fun (j : ℕ) =>
        (sliced.filter fun r =>
          decide (r.LAYER_NUM = ln ∧ target_coord slice_axis r = (j : ℤ))).length
    (matrix, layer_labels, axis_labels)

/-! ## Yield-Killer Analyzer (src/analysis/calculations.py,
calculate_yield_killers lines 268-338) -/

/-- `YieldKillerMetrics` container (src/data_handler.py lines 68-76). -/
structure YieldKillerMetrics where
  top_killer_layer : String
  top_killer_count : ℕ
  worst_unit : String
  worst_unit_count : ℕ
  side_bias : String
  side_bias_diff : ℤ
deriving DecidableEq, Repr

/-- Lexicographic order on unit keys, the order pandas `groupby` emits
`(UNIT_INDEX_X, UNIT_INDEX_Y)` group keys in. -/
def unit_lex_le (a b : ℤ × ℤ) : Prop :=
  a.1 < b.1 ∨ (a.1 = b.1 ∧ a.2 ≤ b.2)

instance unit_lex_le_decidable : DecidableRel unit_lex_le := fun a b => by
  unfold unit_lex_le
  infer_instance

/-- The record set `calculate_yield_killers` works on after the context
filters (layers, sides, verification, quadrant). -/
def yield_killer_filtered (pd : PanelData) (ctx : Option FilterContext) : List Record :=
  let df := get_combined_dataframe pd none
  match ctx with
  | none => df
  | some c =>
      apply_quadrant_filter c.quadrant_filter
        (apply_verification_filter c.verification_filter
          (apply_selected_sides c.selected_sides (apply_selected_layers c.selected_layers df)))

/-- `side_counts.get('F', 0)`: Front-side record count. -/
def front_count (td : List Record) : ℕ :=
  (td.filter fun r => r.SIDE == Side.F).length

/-- `side_counts.get('B', 0)`: Back-side record count. -/
def back_count (td : List Record) : ℕ :=
  (td.filter fun r => r.SIDE == Side.B).length

/-- The metrics computed by `calculate_yield_killers` from the True-Defect
record set.  The worst layer is the one attaining the maximal True-Defect
count (`value_counts().idxmax()`; the source's order among equal-count
layers is incidental — spec §9 — modelled as the smallest such layer
number); the worst unit is the lexicographically first `(x, y)` key
attaining the maximal count (`groupby(...).size().idxmax()` with sorted
group keys). -/
def yield_killer_metrics_of (td : List Record) : YieldKillerMetrics :=
  let layer_nums := List.insertionSort (· ≤ ·) (td.map fun r => r.LAYER_NUM).dedup
  let layer_count := fun ln => (td.filter fun r => decide (r.LAYER_NUM = ln)).length
  let max_layer_count := (layer_nums.map layer_count).foldr max 0
  let top_layer := (layer_nums.find? fun ln => layer_count ln == max_layer_count).getD 0
  let units := List.insertionSort unit_lex_le
    (td.map fun r => (r.UNIT_INDEX_X, r.UNIT_INDEX_Y)).dedup
  let unit_count := fun u => (td.filter fun r =>
    decide (r.UNIT_INDEX_X = Prod.fst u ∧ r.UNIT_INDEX_Y = Prod.snd u)).length
  let max_unit_count := (units.map unit_count).foldr max 0
  let worst := (units.find? fun u => unit_count u == max_unit_count).getD (0, 0)
  { top_killer_layer := "Layer " ++ toString top_layer
    top_killer_count := max_layer_count
    worst_unit := "X:" ++ toString worst.1 ++ ", Y:" ++ toString worst.2
    worst_unit_count := max_unit_count
    side_bias :=
      if back_count td < front_count td then "Front Side"
      else if front_count td < back_count td then "Back Side"
      else "Balanced"
    side_bias_diff := |(front_count td : ℤ) - (back_count td : ℤ)| }

/-- `calculate_yield_killers`. -/
def calculate_yield_killers (pd : PanelData) (panel_rows panel_cols : ℕ)
    (ctx : Option FilterContext) : Option YieldKillerMetrics :=
  let df := yield_killer_filtered pd ctx
  if df.isEmpty then none
  else
    let td := df.filter is_true_defect
    if td.isEmpty then none
    else some (yield_killer_metrics_of td)

/-- The True-Defect record set `calculate_yield_killers` computes its
metrics from. -/
def true_defects_yk (pd : PanelData) (ctx : Option FilterContext) : List Record :=
  (yield_killer_filtered pd ctx).filter is_true_defect

/-! ## True-Defect Coordinate Resolver (src/analysis/calculations.py,
get_true_defect_coordinates lines 26-100) -/

structure ResolverEntry where
  first_killer_layer : ℤ
  defect_summary : String
deriving DecidableEq, Repr

/-- The record set the resolver works on: combined dataframe, then
`excluded_layers` → `selected_sides` (included sides) →
`excluded_defect_types` (verification codes) → the standing True-Defect
filter. -/
def resolver_filtered (pd : PanelData) (ctx : Option FilterContext) : List Record :=
  let df := get_combined_dataframe pd none
  let df := match ctx with
    | none => df
    | some c =>
        apply_excluded_defect_types c.excluded_defect_types
          (apply_selected_sides c.selected_sides (apply_excluded_layers c.excluded_layers df))
  df.filter is_true_defect

/-- Records of one `(PHYSICAL_X, UNIT_INDEX_Y)` cell. -/
def resolver_cell_records (td : List Record) (cell : ℤ × ℤ) : List Record :=
  td.filter fun r => decide (r.PHYSICAL_X = cell.1 ∧ r.UNIT_INDEX_Y = cell.2)

/-- Distinct layer numbers at a cell, ascending (pandas groupby key order). -/
def resolver_cell_layers (td : List Record) (cell : ℤ × ℤ) : List ℤ :=
  List.insertionSort (· ≤ ·) ((resolver_cell_records td cell).map fun r => r.LAYER_NUM).dedup

/-- Per-cell resolver output: the minimal layer number (`groupby(...).min()`,
the head of the ascending layer list) and the `"L{n}: {count}"` summary
joined in ascending layer order. -/
def resolver_entry (td : List Record) (cell : ℤ × ℤ) : ResolverEntry :=
  let layers := resolver_cell_layers td cell
  { first_killer_layer := layers.headD 0
    defect_summary := String.intercalate ", " (layers.map fun ln =>
      "L" ++ toString ln ++ ": " ++
        toString ((resolver_cell_records td cell).filter fun r =>
          decide (r.LAYER_NUM = ln)).length) }

/-- `get_true_defect_coordinates`: map from defective cell to its entry,
represented as an association list (one key per distinct cell; the source's
dict key order is the pandas groupby order, immaterial to the map). -/
def get_true_defect_coordinates (pd : PanelData) (ctx : Option FilterContext) :
    List ((ℤ × ℤ) × ResolverEntry) :=
  let td := resolver_filtered pd ctx
  let cells := (td.map fun r => (r.PHYSICAL_X, r.UNIT_INDEX_Y)).dedup
  cells.map fun cell => (cell, resolver_entry td cell)

/-- Modelled from the spec/claim words (C7): the first occurrence order of
defect types in the input record sequence. -/
def first_seen_dedup (l : List String) : List String :=
  l.foldl (fun acc a => if a ∈ acc then acc else acc ++ [a]) []

/-- Count-descending comparison (a stable sort under it preserves the
underlying order among equal counts). -/
def count_ge (a b : String × ℕ) : Prop := b.2 ≤ a.2

instance count_ge_decidable : DecidableRel count_ge := fun a b => by
  unfold count_ge
  infer_instance

/-- Modelled from the claim's words (C7): the ranking the claim asserts —
defect types ordered by descending count with ties in FIRST-SEEN input
order, realised as a stable sort (by count only) of the
first-occurrence-ordered `(type, count)` list. -/
def ranked_pairs_first_seen_claim (cell : List Record) : List (String × ℕ) :=
  List.insertionSort count_ge ((first_seen_dedup (cell.map fun r => r.DEFECT_TYPE)).map
    fun t => (t, (cell.filter fun r => r.DEFECT_TYPE == t).length))

/-- Concrete record constructor used for sample inputs in witness theorems:
a Front-side record (so `PHYSICAL_X = UNIT_INDEX_X`) in quadrant `Q1`. -/
def sampleRec (x y : ℤ) (t v : String) (ln : ℤ) : Record :=
  { UNIT_INDEX_X := x, UNIT_INDEX_Y := y, DEFECT_TYPE := t, Verification := v,
    LAYER_NUM := ln, SIDE := Side.F, PHYSICAL_X := x, QUADRANT := "Q1" }

/-- Concrete two-layer store (rows = cols = 1) used in witness theorems. -/
def samplePanel : PanelData :=
  [{ layer_num := 1, side := Side.F, records := [sampleRec 0 0 "Nick" "T" 1] },
   { layer_num := 2, side := Side.B,
     records := [{ sampleRec 1 0 "Short" "CU10" 2 with PHYSICAL_X := 0 }] }]

end AOI

/-! ## Claim theorems -/

/-! ### Helper lemmas -/

theorem aoi_sum_map_range {M : Type} [AddCommMonoid M] (f : ℕ → M) (n : ℕ) :
    ((List.range n).map f).sum = ∑ i in Finset.range n, f i := by
  induction n with
  | zero => simp
  | succ n ih => simp [List.range_succ, Finset.sum_range_succ, ih]

theorem aoi_pair_indicator_sum (xa ya : ℤ) (R C : ℕ) (hx0 : 0 ≤ xa) (hxC : xa < 2 * C)
    (hy0 : 0 ≤ ya) (hyR : ya < 2 * R) :
    (∑ y in Finset.range (2 * R), ∑ x in Finset.range (2 * C),
      (if xa = (x : ℤ) ∧ ya = (y : ℤ) then (1 : ℕ) else 0)) = 1 := by
  have hiff : ∀ x y : ℕ, (xa = (x : ℤ) ∧ ya = (y : ℤ)) ↔ (x = xa.toNat ∧ y = ya.toNat) := by
    intro x y
    omega
  simp only [hiff, ite_and]
  have h1 : ∀ y : ℕ,
      (∑ x in Finset.range (2 * C),
        if x = xa.toNat then (if y = ya.toNat then (1 : ℕ) else 0) else 0) =
      (if y = ya.toNat then (1 : ℕ) else 0) := by
    intro y
    rw [Finset.sum_ite_eq']
    have : xa.toNat ∈ Finset.range (2 * C) := by
      rw [Finset.mem_range]
      omega
    simp [this]
  simp only [h1]
  rw [Finset.sum_ite_eq']
  have : ya.toNat ∈ Finset.range (2 * R) := by
    rw [Finset.mem_range]
    omega
  simp [this]

theorem aoi_grid_sum_eq_length (l : List AOI.Record) (R C : ℕ)
    (h : ∀ r ∈ l, 0 ≤ r.UNIT_INDEX_X ∧ r.UNIT_INDEX_X < 2 * (C : ℤ) ∧
      0 ≤ r.UNIT_INDEX_Y ∧ r.UNIT_INDEX_Y < 2 * (R : ℤ)) :
    (∑ y in Finset.range (2 * R), ∑ x in Finset.range (2 * C),
      (AOI.cell_records l x y).length) = l.length := by
  induction l with
  | nil => simp [AOI.cell_records]
  | cons a l ih =>
    have ha := h a (List.mem_cons_self a l)
    have hl := fun r hr => h r (List.mem_cons_of_mem a hr)
    simp only [AOI.cell_records, ← List.countP_eq_length_filter, List.countP_cons,
      decide_eq_true_eq] at ih ⊢
    simp only [Finset.sum_add_distrib, ih hl, List.length_cons]
    have := aoi_pair_indicator_sum a.UNIT_INDEX_X a.UNIT_INDEX_Y R C ha.1
      (by exact_mod_cast ha.2.1) ha.2.2.1 (by exact_mod_cast ha.2.2.2)
    omega

theorem aoi_valid_records_idem (df : List AOI.Record) (R C : ℕ) :
    AOI.valid_records (AOI.valid_records df R C) R C = AOI.valid_records df R C := by
  unfold AOI.valid_records
  rw [List.filter_filter]
  have : (fun r : AOI.Record =>
      (decide (0 ≤ r.UNIT_INDEX_X ∧ r.UNIT_INDEX_X < 2 * (C : ℤ) ∧
        0 ≤ r.UNIT_INDEX_Y ∧ r.UNIT_INDEX_Y < 2 * (R : ℤ)) &&
       decide (0 ≤ r.UNIT_INDEX_X ∧ r.UNIT_INDEX_X < 2 * (C : ℤ) ∧
        0 ≤ r.UNIT_INDEX_Y ∧ r.UNIT_INDEX_Y < 2 * (R : ℤ)))) =
      (fun r : AOI.Record =>
       decide (0 ≤ r.UNIT_INDEX_X ∧ r.UNIT_INDEX_X < 2 * (C : ℤ) ∧
        0 ≤ r.UNIT_INDEX_Y ∧ r.UNIT_INDEX_Y < 2 * (R : ℤ))) := by
    funext r
    exact Bool.and_self _
  rw [this]

theorem aoi_mem_valid_records_bounds (df : List AOI.Record) (R C : ℕ) :
    ∀ r ∈ AOI.valid_records df R C, 0 ≤ r.UNIT_INDEX_X ∧ r.UNIT_INDEX_X < 2 * (C : ℤ) ∧
      0 ≤ r.UNIT_INDEX_Y ∧ r.UNIT_INDEX_Y < 2 * (R : ℤ) := by
  intro r hr
  have := (List.mem_filter.mp hr).2
  exact of_decide_eq_true this

theorem aoi_grid_total (df : List AOI.Record) (R C : ℕ) :
    ((AOI.grid_counts_of df R C).map List.sum).sum = (AOI.valid_records df R C).length := by
  unfold AOI.grid_counts_of
  rw [List.map_map]
  have : (List.sum ∘ fun y => (List.range (2 * C)).map fun x =>
      (AOI.cell_records (AOI.valid_records df R C) x y).length) =
      fun y => ∑ x in Finset.range (2 * C),
        (AOI.cell_records (AOI.valid_records df R C) x y).length := by
    funext y
    exact aoi_sum_map_range _ _
  rw [this, aoi_sum_map_range]
  exact aoi_grid_sum_eq_length _ R C (aoi_mem_valid_records_bounds df R C)

theorem aoi_aggregate_drop_invalid (df : List AOI.Record) (R C : ℕ) :
    AOI.aggregate_stress_data_from_df (AOI.valid_records df R C) R C =
      AOI.aggregate_stress_data_from_df df R C := by
  unfold AOI.aggregate_stress_data_from_df AOI.grid_counts_of AOI.hover_text_grid
  rw [aoi_valid_records_idem]

/-- C1: the Grid Aggregator returns a `(2·rows) × (2·cols)` count grid;
out-of-bounds records are silently dropped (aggregating only the in-bounds
records yields the identical output); the grid total equals the number of
in-bounds records and equals the reported `total_defects`; and re-aggregating
the same input yields the same result (the function is pure). -/
theorem C1_grid_aggregator_conservation (df : List AOI.Record) (panel_rows panel_cols : ℕ)
    (hrows : 0 < panel_rows) (hcols : 0 < panel_cols) :
    (AOI.aggregate_stress_data_from_df df panel_rows panel_cols).grid_counts.length =
      2 * panel_rows ∧
    (∀ row ∈ (AOI.aggregate_stress_data_from_df df panel_rows panel_cols).grid_counts,
      row.length = 2 * panel_cols) ∧
    AOI.aggregate_stress_data_from_df (AOI.valid_records df panel_rows panel_cols)
      panel_rows panel_cols = AOI.aggregate_stress_data_from_df df panel_rows panel_cols ∧
    ((AOI.aggregate_stress_data_from_df df panel_rows panel_cols).grid_counts.map
      List.sum).sum = (AOI.valid_records df panel_rows panel_cols).length ∧
    (AOI.aggregate_stress_data_from_df df panel_rows panel_cols).total_defects =
      ((AOI.aggregate_stress_data_from_df df panel_rows panel_cols).grid_counts.map
        List.sum).sum ∧
    AOI.aggregate_stress_data_from_df df panel_rows panel_cols =
      AOI.aggregate_stress_data_from_df df panel_rows panel_cols := by
  refine ⟨?_, ?_, aoi_aggregate_drop_invalid df _ _, ?_, rfl, rfl⟩
  · simp [AOI.aggregate_stress_data_from_df, AOI.grid_counts_of]
  · intro row hrow
    simp only [AOI.aggregate_stress_data_from_df, AOI.grid_counts_of, List.mem_map,
      List.mem_range] at hrow
    obtain ⟨y, hy, hrow⟩ := hrow
    rw [← hrow]
    simp
  · show ((AOI.grid_counts_of df panel_rows panel_cols).map List.sum).sum = _
    exact aoi_grid_total df _ _

theorem C1_grid_aggregator_conservation_witness :
    0 < 1 ∧
    ((AOI.aggregate_stress_data_from_df
        [AOI.sampleRec 0 0 "Nick" "T" 1, AOI.sampleRec 0 0 "Nick" "T" 2,
         AOI.sampleRec 7 0 "Nick" "T" 1] 1 1).grid_counts.map List.sum).sum =
      (AOI.valid_records
        [AOI.sampleRec 0 0 "Nick" "T" 1, AOI.sampleRec 0 0 "Nick" "T" 2,
         AOI.sampleRec 7 0 "Nick" "T" 1] 1 1).length ∧
    (AOI.valid_records
        [AOI.sampleRec 0 0 "Nick" "T" 1, AOI.sampleRec 0 0 "Nick" "T" 2,
         AOI.sampleRec 7 0 "Nick" "T" 1] 1 1).length = 2 :=
  ⟨Nat.one_pos,
   (C1_grid_aggregator_conservation _ 1 1 Nat.one_pos Nat.one_pos).2.2.2.1,
   by decide⟩

theorem aoi_apply_selected_layers_nil (o : Option (List ℤ)) :
    AOI.apply_selected_layers o [] = [] := by
  unfold AOI.apply_selected_layers AOI.keep_if_truthy
  cases o <;> simp

theorem aoi_apply_selected_sides_nil (o : Option (List AOI.Side)) :
    AOI.apply_selected_sides o [] = [] := by
  unfold AOI.apply_selected_sides AOI.keep_if_truthy
  cases o <;> simp

theorem aoi_apply_verification_filter_nil (o : Option (List String)) :
    AOI.apply_verification_filter o [] = [] := by
  unfold AOI.apply_verification_filter AOI.keep_if_truthy
  cases o <;> simp

theorem aoi_apply_quadrant_filter_nil (q : String) :
    AOI.apply_quadrant_filter q [] = [] := by
  unfold AOI.apply_quadrant_filter
  split <;> rfl

theorem aoi_apply_excluded_layers_nil (o : Option (List ℤ)) :
    AOI.apply_excluded_layers o [] = [] := by
  unfold AOI.apply_excluded_layers AOI.keep_if_truthy
  cases o <;> simp

theorem aoi_apply_excluded_defect_types_nil (o : Option (List String)) :
    AOI.apply_excluded_defect_types o [] = [] := by
  unfold AOI.apply_excluded_defect_types AOI.keep_if_truthy
  cases o <;> simp

theorem aoi_empty_grid (panel_rows panel_cols : ℕ) :
    AOI.grid_counts_of [] panel_rows panel_cols =
      List.replicate (2 * panel_rows) (List.replicate (2 * panel_cols) 0) := by
  simp [AOI.grid_counts_of, AOI.valid_records, AOI.cell_records, List.map_const']

/-- C8: every aggregation entry point returns its documented empty shape on
zero records: the combined view of an empty store is the empty sequence, the
Grid Aggregator yields an all-zero grid with `total_defects = 0` and
`max_count = 0`, the Cross-Section Builder returns a `(0, 0)` matrix with
empty label lists, the Yield-Killer Analyzer reports `none`, and the
True-Defect Resolver returns the empty map.  All embedded functions are
total, so no exception can be raised. -/
theorem C8_empty_input_safety (panel_rows panel_cols : ℕ) (slice_axis : String)
    (slice_index : ℤ) (ctx : Option AOI.FilterContext)
    (filter_func : Option (List AOI.Record → List AOI.Record)) :
    AOI.get_combined_dataframe [] filter_func = [] ∧
    (AOI.aggregate_stress_data_from_df [] panel_rows panel_cols).grid_counts =
      List.replicate (2 * panel_rows) (List.replicate (2 * panel_cols) 0) ∧
    (AOI.aggregate_stress_data_from_df [] panel_rows panel_cols).total_defects = 0 ∧
    (AOI.aggregate_stress_data_from_df [] panel_rows panel_cols).max_count = 0 ∧
    AOI.get_cross_section_matrix [] slice_axis slice_index panel_rows panel_cols ctx =
      ([], [], []) ∧
    AOI.calculate_yield_killers [] panel_rows panel_cols ctx = none ∧
    AOI.get_true_defect_coordinates [] ctx = [] := by
  have hyk : AOI.yield_killer_filtered [] ctx = [] := by
    cases ctx with
    | none => rfl
    | some c =>
        simp [AOI.yield_killer_filtered, AOI.get_combined_dataframe,
          aoi_apply_selected_layers_nil, aoi_apply_selected_sides_nil,
          aoi_apply_verification_filter_nil, aoi_apply_quadrant_filter_nil]
  have hres : AOI.resolver_filtered [] ctx = [] := by
    cases ctx with
    | none => rfl
    | some c =>
        simp [AOI.resolver_filtered, AOI.get_combined_dataframe,
          aoi_apply_excluded_layers_nil, aoi_apply_selected_sides_nil,
          aoi_apply_excluded_defect_types_nil]
  refine ⟨rfl, ?_, ?_, ?_, rfl, ?_, ?_⟩
  · show AOI.grid_counts_of [] panel_rows panel_cols = _
    exact aoi_empty_grid panel_rows panel_cols
  · show ((AOI.grid_counts_of [] panel_rows panel_cols).map List.sum).sum = 0
    rw [aoi_empty_grid]
    simp
  · show (if 0 < ((AOI.grid_counts_of [] panel_rows panel_cols).map List.sum).sum
      then _ else 0) = 0
    rw [aoi_empty_grid]
    simp
  · simp [AOI.calculate_yield_killers, hyk]
  · simp [AOI.get_true_defect_coordinates, hres]

/-- C6-counterexample: the claim fails on the code.  When the uploaded file
HAS a `Verification` column, a whitespace-only (blank) code is normalised to
`'N'` — which is in the Safe set — and not to the `'Under Verification'`
sentinel. -/
theorem C6_blank_code_counterexample :
    AOI.normalize_verification true (some "  ") = "N" ∧
    AOI.SAFE_VERIFICATION_VALUES_UPPER.contains "N" = true ∧
    AOI.normalize_verification true (some "  ") ≠ "Under Verification" := by
  refine ⟨by decide, by decide, by decide⟩

/-- C6-amended: only when the `Verification` column is missing entirely is
every record marked `'Under Verification'`; when the column is present, an
absent (NaN) or blank (empty / whitespace-only) code is normalised to `'N'`
and thereby auto-classified Safe. -/
theorem C6_blank_code_amended (raw : Option String)
    (h : raw = none ∨ ∃ s, raw = some s ∧ AOI.pyStrip s = "") :
    AOI.normalize_verification false raw = "Under Verification" ∧
    AOI.normalize_verification true raw = "N" ∧
    AOI.SAFE_VERIFICATION_VALUES_UPPER.contains "N" = true := by
  refine ⟨rfl, ?_, by decide⟩
  rcases h with rfl | ⟨s, rfl, hs⟩
  · decide
  · have hupper : AOI.pyUpper (AOI.pyStrip s) = "" := by
      rw [hs]
      decide
    simp [AOI.normalize_verification, hupper]

theorem C6_blank_code_amended_witness :
    (some " " = none ∨ ∃ s, some " " = some s ∧ AOI.pyStrip s = "") ∧
    (AOI.normalize_verification false (some " ") = "Under Verification" ∧
     AOI.normalize_verification true (some " ") = "N" ∧
     AOI.SAFE_VERIFICATION_VALUES_UPPER.contains "N" = true) :=
  ⟨Or.inr ⟨" ", rfl, by decide⟩,
   C6_blank_code_amended (some " ") (Or.inr ⟨" ", rfl, by decide⟩)⟩

theorem aoi_side_bias_of (td : List AOI.Record) :
    ((AOI.yield_killer_metrics_of td).side_bias = "Front Side" ↔
      AOI.back_count td < AOI.front_count td) ∧
    ((AOI.yield_killer_metrics_of td).side_bias = "Back Side" ↔
      AOI.front_count td < AOI.back_count td) ∧
    ((AOI.yield_killer_metrics_of td).side_bias = "Balanced" ↔
      AOI.front_count td = AOI.back_count td) ∧
    (AOI.yield_killer_metrics_of td).side_bias_diff =
      |(AOI.front_count td : ℤ) - (AOI.back_count td : ℤ)| := by
  have hbias : (AOI.yield_killer_metrics_of td).side_bias =
      (if AOI.back_count td < AOI.front_count td then "Front Side"
       else if AOI.front_count td < AOI.back_count td then "Back Side"
       else "Balanced") := rfl
  rcases Nat.lt_trichotomy (AOI.front_count td) (AOI.back_count td) with h | h | h
  · have hnb : ¬ AOI.back_count td < AOI.front_count td := Nat.lt_asymm h
    rw [hbias, if_neg hnb, if_pos h]
    exact ⟨iff_of_false (by decide) hnb, iff_of_true rfl h,
      iff_of_false (by decide) (Nat.ne_of_lt h), rfl⟩
  · have hnb : ¬ AOI.back_count td < AOI.front_count td := by omega
    have hnf : ¬ AOI.front_count td < AOI.back_count td := by omega
    rw [hbias, if_neg hnb, if_neg hnf]
    exact ⟨iff_of_false (by decide) hnb, iff_of_false (by decide) hnf,
      iff_of_true rfl h, rfl⟩
  · rw [hbias, if_pos h]
    exact ⟨iff_of_true rfl h, iff_of_false (by decide) (Nat.lt_asymm h),
      iff_of_false (by decide) (by omega), rfl⟩

/-- C9: on a non-empty True-Defect record set the Yield-Killer Analyzer
returns metrics whose `side_bias` is `"Front Side"` exactly when the
Front-side count strictly exceeds the Back-side count, `"Back Side"` exactly
when the Back-side count strictly exceeds the Front-side count, `"Balanced"`
exactly on equality, and whose `side_bias_diff` is the absolute difference
of the two counts. -/
theorem C9_yield_killer_side_bias (pd : AOI.PanelData) (panel_rows panel_cols : ℕ)
    (ctx : Option AOI.FilterContext) (h : AOI.true_defects_yk pd ctx ≠ []) :
    AOI.calculate_yield_killers pd panel_rows panel_cols ctx =
      some (AOI.yield_killer_metrics_of (AOI.true_defects_yk pd ctx)) ∧
    ((AOI.yield_killer_metrics_of (AOI.true_defects_yk pd ctx)).side_bias = "Front Side" ↔
      AOI.back_count (AOI.true_defects_yk pd ctx) <
        AOI.front_count (AOI.true_defects_yk pd ctx)) ∧
    ((AOI.yield_killer_metrics_of (AOI.true_defects_yk pd ctx)).side_bias = "Back Side" ↔
      AOI.front_count (AOI.true_defects_yk pd ctx) <
        AOI.back_count (AOI.true_defects_yk pd ctx)) ∧
    ((AOI.yield_killer_metrics_of (AOI.true_defects_yk pd ctx)).side_bias = "Balanced" ↔
      AOI.front_count (AOI.true_defects_yk pd ctx) =
        AOI.back_count (AOI.true_defects_yk pd ctx)) ∧
    (AOI.yield_killer_metrics_of (AOI.true_defects_yk pd ctx)).side_bias_diff =
      |(AOI.front_count (AOI.true_defects_yk pd ctx) : ℤ) -
        (AOI.back_count (AOI.true_defects_yk pd ctx) : ℤ)| := by
  have hdfne : AOI.yield_killer_filtered pd ctx ≠ [] := by
    intro he
    apply h
    unfold AOI.true_defects_yk
    rw [he]
    rfl
  have h1 : (AOI.yield_killer_filtered pd ctx).isEmpty = false := by
    rcases hk : AOI.yield_killer_filtered pd ctx with _ | ⟨a, l⟩
    · exact absurd hk hdfne
    · rfl
  have h2 : ((AOI.yield_killer_filtered pd ctx).filter AOI.is_true_defect).isEmpty = false := by
    have hne : (AOI.yield_killer_filtered pd ctx).filter AOI.is_true_defect ≠ [] := h
    rcases hk : (AOI.yield_killer_filtered pd ctx).filter AOI.is_true_defect with _ | ⟨a, l⟩
    · exact absurd hk hne
    · rfl
  refine ⟨?_, (aoi_side_bias_of _).1, (aoi_side_bias_of _).2.1,
    (aoi_side_bias_of _).2.2.1, (aoi_side_bias_of _).2.2.2⟩
  simp [AOI.calculate_yield_killers, AOI.true_defects_yk, h1, h2]

theorem C9_yield_killer_side_bias_witness :
    AOI.true_defects_yk AOI.samplePanel none ≠ [] ∧
    AOI.calculate_yield_killers AOI.samplePanel 1 1 none =
      some (AOI.yield_killer_metrics_of (AOI.true_defects_yk AOI.samplePanel none)) :=
  ⟨by decide, (C9_yield_killer_side_bias AOI.samplePanel 1 1 none (by decide)).1⟩

theorem aoi_mem_apply_selected_sides (o : Option (List AOI.Side)) (df : List AOI.Record)
    (r : AOI.Record) (h : r ∈ AOI.apply_selected_sides o df) : r ∈ df := by
  cases o with
  | none => exact h
  | some xs =>
      simp only [AOI.apply_selected_sides, AOI.keep_if_truthy] at h
      split at h
      · exact h
      · exact (List.mem_filter.mp h).1

theorem aoi_mem_apply_verification_filter (o : Option (List String)) (df : List AOI.Record)
    (r : AOI.Record) (h : r ∈ AOI.apply_verification_filter o df) : r ∈ df := by
  cases o with
  | none => exact h
  | some xs =>
      simp only [AOI.apply_verification_filter, AOI.keep_if_truthy] at h
      split at h
      · exact h
      · exact (List.mem_filter.mp h).1

theorem aoi_mem_apply_selected_layers_sel (sel : List ℤ) (hsel : sel ≠ [])
    (df : List AOI.Record) (r : AOI.Record)
    (h : r ∈ AOI.apply_selected_layers (some sel) df) : r.LAYER_NUM ∈ sel := by
  simp only [AOI.apply_selected_layers, AOI.keep_if_truthy] at h
  have he : sel.isEmpty = false := by
    rcases sel with _ | _
    · exact absurd rfl hsel
    · rfl
  rw [he] at h
  simp only [Bool.false_eq_true, if_false] at h
  exact of_decide_eq_true (List.mem_filter.mp h).2

theorem aoi_get_all_layer_nums_ne_nil (pd : AOI.PanelData) (hpd : pd ≠ []) :
    AOI.get_all_layer_nums pd ≠ [] := by
  unfold AOI.get_all_layer_nums
  intro he
  have hperm := List.perm_insertionSort (fun a b : ℤ => a ≤ b)
    ((pd.map fun L => L.layer_num).dedup)
  rw [he] at hperm
  have hd : (pd.map fun L => L.layer_num).dedup = [] := hperm.symm.eq_nil
  rw [List.dedup_eq_nil] at hd
  exact hpd (List.map_eq_nil.mp hd)

theorem aoi_get_all_layer_nums_sorted (pd : AOI.PanelData) :
    (AOI.get_all_layer_nums pd).Sorted (· < ·) := by
  unfold AOI.get_all_layer_nums
  have hsorted := List.sorted_insertionSort (fun a b : ℤ => a ≤ b)
    ((pd.map fun L => L.layer_num).dedup)
  have hnodup : (List.insertionSort (fun a b : ℤ => a ≤ b)
      ((pd.map fun L => L.layer_num).dedup)).Nodup :=
    ((List.perm_insertionSort _ _).nodup_iff).mpr (List.nodup_dedup _)
  exact (hsorted.and hnodup).imp fun h => lt_of_le_of_ne h.1 h.2

theorem aoi_mem_get_all_layer_nums (pd : AOI.PanelData) (L : AOI.BuildUpLayer)
    (hL : L ∈ pd) : L.layer_num ∈ AOI.get_all_layer_nums pd := by
  unfold AOI.get_all_layer_nums
  rw [(List.perm_insertionSort _ _).mem_iff, List.mem_dedup]
  exact List.mem_map.mpr ⟨L, hL, rfl⟩

/-- C10: the layer rows and `layer_labels` of the cross-section matrix are
derived from the FULL store before any filter is applied: labels are
`"L{n}"` for the sorted distinct layer numbers of the store, the matrix has
one row per such layer, and a layer excluded by the context's
`selected_layers` still has its (all-zero) row and label. -/
theorem C10_cross_section_layers_from_full_store (pd : AOI.PanelData) (slice_axis : String)
    (slice_index : ℤ) (panel_rows panel_cols : ℕ) (ctx : Option AOI.FilterContext)
    (hpd : pd ≠ []) :
    (AOI.get_cross_section_matrix pd slice_axis slice_index panel_rows panel_cols ctx).2.1 =
      (AOI.get_all_layer_nums pd).map (fun n => "L" ++ toString n) ∧
    (AOI.get_cross_section_matrix pd slice_axis slice_index panel_rows panel_cols ctx).1.length
      = (AOI.get_all_layer_nums pd).length ∧
    (AOI.get_all_layer_nums pd).Sorted (· < ·) ∧
    (∀ L ∈ pd, L.layer_num ∈ AOI.get_all_layer_nums pd) ∧
    (∀ c sel, ctx = some c → c.selected_layers = some sel → sel ≠ [] →
      ∀ i, ∀ hi : i < (AOI.get_all_layer_nums pd).length,
        (AOI.get_all_layer_nums pd).get ⟨i, hi⟩ ∉ sel →
        (AOI.get_cross_section_matrix pd slice_axis slice_index panel_rows panel_cols
            ctx).1.get? i =
          some (List.replicate
            (if slice_axis = "Y" then 2 * panel_cols else 2 * panel_rows) 0)) := by
  have hlne := aoi_get_all_layer_nums_ne_nil pd hpd
  have hE : (AOI.get_all_layer_nums pd).isEmpty = false := by
    rcases hk : AOI.get_all_layer_nums pd with _ | ⟨a, l⟩
    · exact absurd hk hlne
    · rfl
  refine ⟨?_, ?_, aoi_get_all_layer_nums_sorted pd, aoi_mem_get_all_layer_nums pd, ?_⟩
  · simp [AOI.get_cross_section_matrix, hE]
  · simp [AOI.get_cross_section_matrix, hE]
  · intro c sel hc hsel hselne i hi hnot
    subst hc
    have hrow : (AOI.get_cross_section_matrix pd slice_axis slice_index panel_rows panel_cols
        (some c)).1.get? i =
        some ((List.range (if slice_axis = "Y" then 2 * panel_cols else 2 * panel_rows)).map
          fun (j : ℕ) =>
            (((AOI.cross_section_filtered pd (some c)).filter fun r =>
                decide (AOI.slice_coord slice_axis r = slice_index)).filter fun r =>
              decide (r.LAYER_NUM = (AOI.get_all_layer_nums pd).get ⟨i, hi⟩ ∧
                AOI.target_coord slice_axis r = (j : ℤ))).length) := by
      simp only [AOI.get_cross_section_matrix, hE, Bool.false_eq_true, if_false]
      rw [List.get?_map, List.get?_eq_get hi]
      rfl
    rw [hrow]
    congr 1
    have hzero : ∀ (j : ℕ),
        (((AOI.cross_section_filtered pd (some c)).filter fun r =>
            decide (AOI.slice_coord slice_axis r = slice_index)).filter fun r =>
          decide (r.LAYER_NUM = (AOI.get_all_layer_nums pd).get ⟨i, hi⟩ ∧
            AOI.target_coord slice_axis r = ((j : ℕ) : ℤ))).length = 0 := by
      intro j
      rw [List.length_eq_zero, List.filter_eq_nil]
      intro r hr
      rw [decide_eq_true_eq]
      rintro ⟨hln, -⟩
      have hmem : r ∈ AOI.cross_section_filtered pd (some c) := (List.mem_filter.mp hr).1
      have hrsel : r.LAYER_NUM ∈ sel := by
        unfold AOI.cross_section_filtered at hmem
        have h1 := (List.mem_filter.mp hmem).1
        have h2 := aoi_mem_apply_verification_filter _ _ _ h1
        have h3 := aoi_mem_apply_selected_sides _ _ _ h2
        rw [hsel] at h3
        exact aoi_mem_apply_selected_layers_sel sel hselne _ r h3
      rw [hln] at hrsel
      exact hnot hrsel
    rw [List.eq_replicate]
    constructor
    · simp
    · intro b hb
      obtain ⟨j, hj, hbe⟩ := List.mem_map.mp hb
      rw [← hbe]
      exact hzero j

theorem C10_cross_section_layers_from_full_store_witness :
    AOI.samplePanel ≠ [] ∧
    (AOI.get_cross_section_matrix AOI.samplePanel "Y" 0 1 1 none).2.1 =
      (AOI.get_all_layer_nums AOI.samplePanel).map (fun n => "L" ++ toString n) :=
  ⟨by decide,
   (C10_cross_section_layers_from_full_store AOI.samplePanel "Y" 0 1 1 none (by decide)).1⟩

theorem aoi_sum_map_add {α : Type} (L : List α) (f g : α → ℕ) :
    (L.map fun a => f a + g a).sum = (L.map f).sum + (L.map g).sum := by
  induction L with
  | nil => rfl
  | cons b L ih =>
      simp only [List.map_cons, List.sum_cons, ih]
      omega

theorem aoi_indicator_not_mem {α : Type} [DecidableEq α] (L : List α) (a : α) (ha : a ∉ L) :
    (L.map fun x => if a = x then (1 : ℕ) else 0).sum = 0 := by
  induction L with
  | nil => rfl
  | cons b L ih =>
      simp only [List.map_cons, List.sum_cons]
      have hab : a ≠ b := fun he => ha (he ▸ List.mem_cons_self b L)
      rw [if_neg hab, ih fun h => ha (List.mem_cons_of_mem b h)]

theorem aoi_indicator_mem {α : Type} [DecidableEq α] (L : List α) (hN : L.Nodup) (a : α)
    (ha : a ∈ L) :
    (L.map fun x => if a = x then (1 : ℕ) else 0).sum = 1 := by
  induction L with
  | nil => cases ha
  | cons b L ih =>
      simp only [List.map_cons, List.sum_cons]
      rcases List.mem_cons.mp ha with rfl | hmem
      · rw [if_pos rfl, aoi_indicator_not_mem L a (List.nodup_cons.mp hN).1]
      · have hab : a ≠ b := by
          rintro rfl
          exact (List.nodup_cons.mp hN).1 hmem
        rw [if_neg hab, ih (List.nodup_cons.mp hN).2 hmem]

theorem aoi_coord_indicator_sum (t : ℤ) (W : ℕ) :
    (∑ j in Finset.range W, if t = (j : ℤ) then (1 : ℕ) else 0) =
      if 0 ≤ t ∧ t < (W : ℤ) then 1 else 0 := by
  by_cases h : 0 ≤ t ∧ t < (W : ℤ)
  · rw [if_pos h]
    have hiff : ∀ j : ℕ, (t = (j : ℤ)) ↔ (j = t.toNat) := by
      intro j
      omega
    simp only [hiff]
    rw [Finset.sum_ite_eq']
    have : t.toNat ∈ Finset.range W := by
      rw [Finset.mem_range]
      omega
    simp [this]
  · rw [if_neg h]
    apply Finset.sum_eq_zero
    intro j hj
    rw [Finset.mem_range] at hj
    rw [if_neg]
    omega

theorem aoi_cross_sum (L : List ℤ) (hN : L.Nodup) (W : ℕ) (tc : AOI.Record → ℤ)
    (l : List AOI.Record) (hl : ∀ r ∈ l, r.LAYER_NUM ∈ L) :
    (L.map fun ln => ∑ j in Finset.range W,
      (l.filter fun r => decide (r.LAYER_NUM = ln ∧ tc r = (j : ℤ))).length).sum =
    (l.filter fun r => decide (0 ≤ tc r ∧ tc r < (W : ℤ))).length := by
  induction l with
  | nil => simp
  | cons a l ih =>
      have ha := hl a (List.mem_cons_self a l)
      have hl' := fun r hr => hl r (List.mem_cons_of_mem a hr)
      simp only [← List.countP_eq_length_filter, List.countP_cons, decide_eq_true_eq] at ih ⊢
      simp only [Finset.sum_add_distrib, aoi_sum_map_add, ih hl']
      have hB : (L.map fun ln => ∑ j in Finset.range W,
          if a.LAYER_NUM = ln ∧ tc a = (j : ℤ) then (1 : ℕ) else 0).sum =
          if 0 ≤ tc a ∧ tc a < (W : ℤ) then 1 else 0 := by
        have h1 : ∀ ln : ℤ, (∑ j in Finset.range W,
            if a.LAYER_NUM = ln ∧ tc a = (j : ℤ) then (1 : ℕ) else 0) =
            if a.LAYER_NUM = ln then (if 0 ≤ tc a ∧ tc a < (W : ℤ) then 1 else 0) else 0 := by
          intro ln
          by_cases hp : a.LAYER_NUM = ln
          · rw [if_pos hp]
            have hj : ∀ j : ℕ, (a.LAYER_NUM = ln ∧ tc a = (j : ℤ)) ↔ (tc a = (j : ℤ)) :=
              fun j => and_iff_right hp
            simp only [hj]
            exact aoi_coord_indicator_sum (tc a) W
          · rw [if_neg hp]
            apply Finset.sum_eq_zero
            intro j hj
            rw [if_neg]
            rintro ⟨h1, -⟩
            exact hp h1
        simp only [h1]
        by_cases hin : 0 ≤ tc a ∧ tc a < (W : ℤ)
        · simp only [if_pos hin]
          exact aoi_indicator_mem L hN a.LAYER_NUM ha
        · simp only [if_neg hin]
          simp
      rw [hB]

theorem aoi_mem_apply_selected_layers (o : Option (List ℤ)) (df : List AOI.Record)
    (r : AOI.Record) (h : r ∈ AOI.apply_selected_layers o df) : r ∈ df := by
  cases o with
  | none => exact h
  | some xs =>
      simp only [AOI.apply_selected_layers, AOI.keep_if_truthy] at h
      split at h
      · exact h
      · exact (List.mem_filter.mp h).1

theorem aoi_layer_of_combined (pd : AOI.PanelData) (r : AOI.Record)
    (h : r ∈ AOI.get_combined_dataframe pd none) :
    r.LAYER_NUM ∈ AOI.get_all_layer_nums pd := by
  unfold AOI.get_combined_dataframe at h
  rw [List.mem_flatMap] at h
  obtain ⟨L, hL, hr⟩ := h
  obtain ⟨r0, hr0, hre⟩ := List.mem_map.mp hr
  have : r.LAYER_NUM = L.layer_num := by
    rw [← hre]
  rw [this]
  exact aoi_mem_get_all_layer_nums pd L hL

theorem aoi_mem_cross_section_filtered_layer (pd : AOI.PanelData)
    (ctx : Option AOI.FilterContext) (r : AOI.Record)
    (h : r ∈ AOI.cross_section_filtered pd ctx) :
    r.LAYER_NUM ∈ AOI.get_all_layer_nums pd := by
  unfold AOI.cross_section_filtered at h
  have h1 := (List.mem_filter.mp h).1
  cases ctx with
  | none => exact aoi_layer_of_combined pd r h1
  | some c =>
      have h2 := aoi_mem_apply_verification_filter _ _ _ h1
      have h3 := aoi_mem_apply_selected_sides _ _ _ h2
      have h4 := aoi_mem_apply_selected_layers _ _ _ h3
      exact aoi_layer_of_combined pd r h4

/-- C5-counterexample: the claim fails on the code.  A True-Defect record at
`y = 0` whose `UNIT_INDEX_X` (here `2`, with `cols = 1`) lies outside
`[0, 2·cols)` is skipped by the matrix-filling bounds guard, so the matrix
sum (0) undercounts the True-Defect records at that row (1). -/
theorem C5_cross_section_row_sum_counterexample :
    ((AOI.get_cross_section_matrix
        [{ layer_num := 1, side := AOI.Side.F,
           records := [AOI.sampleRec 2 0 "Nick" "T" 1] }] "Y" 0 1 1 none).1.map
      List.sum).sum = 0 ∧
    ((AOI.cross_section_filtered
        [{ layer_num := 1, side := AOI.Side.F,
           records := [AOI.sampleRec 2 0 "Nick" "T" 1] }] none).filter fun r =>
      decide (r.UNIT_INDEX_Y = 0)).length = 1 ∧
    (0 : ℕ) ≠ 1 := by
  refine ⟨by decide, by decide, by decide⟩

/-- C5-amended: for a Row slice at `y0`, the sum of all layer-rows of the
cross-section matrix equals the number of True-Defect records (Safe records
excluded before slicing) with `UNIT_INDEX_Y = y0` AND `UNIT_INDEX_X` inside
`[0, 2·cols)` — records whose target coordinate falls outside the matrix
width are skipped by the filling loop's bounds guard. -/
theorem C5_cross_section_row_sum_amended (pd : AOI.PanelData) (slice_index : ℤ)
    (panel_rows panel_cols : ℕ) (hrows : 0 < panel_rows) (hcols : 0 < panel_cols) :
    ((AOI.get_cross_section_matrix pd "Y" slice_index panel_rows panel_cols none).1.map
      List.sum).sum =
    ((AOI.cross_section_filtered pd none).filter fun r =>
      decide (r.UNIT_INDEX_Y = slice_index ∧ 0 ≤ r.UNIT_INDEX_X ∧
        r.UNIT_INDEX_X < ((2 * panel_cols : ℕ) : ℤ))).length := by
  rcases hpd : pd with _ | ⟨L0, pd'⟩
  · rfl
  · rw [← hpd]
    have hpdne : pd ≠ [] := by
      rw [hpd]
      exact List.cons_ne_nil L0 pd'
    have hlne := aoi_get_all_layer_nums_ne_nil pd hpdne
    have hE : (AOI.get_all_layer_nums pd).isEmpty = false := by
      rcases hk : AOI.get_all_layer_nums pd with _ | _
      · exact absurd hk hlne
      · rfl
    have hnodup : (AOI.get_all_layer_nums pd).Nodup :=
      ((List.perm_insertionSort _ _).nodup_iff).mpr (List.nodup_dedup _)
    simp only [AOI.get_cross_section_matrix, hE, Bool.false_eq_true, if_false,
      if_pos rfl, if_true, ite_true, List.map_map]
    have hcomp : (List.sum ∘ fun ln => (List.range (2 * panel_cols)).map fun (j : ℕ) =>
        (((AOI.cross_section_filtered pd none).filter fun r =>
            decide (AOI.slice_coord "Y" r = slice_index)).filter fun r =>
          decide (r.LAYER_NUM = ln ∧ AOI.target_coord "Y" r = (j : ℤ))).length) =
        fun ln => ∑ j in Finset.range (2 * panel_cols),
          (((AOI.cross_section_filtered pd none).filter fun r =>
            decide (AOI.slice_coord "Y" r = slice_index)).filter fun r =>
          decide (r.LAYER_NUM = ln ∧ AOI.target_coord "Y" r = (j : ℤ))).length := by
      funext ln
      exact aoi_sum_map_range _ _
    rw [hcomp]
    rw [aoi_cross_sum (AOI.get_all_layer_nums pd) hnodup (2 * panel_cols)
      (AOI.target_coord "Y") _ ?memlayers]
    case memlayers =>
      intro r hr
      exact aoi_mem_cross_section_filtered_layer pd none r (List.mem_filter.mp hr).1
    rw [List.filter_filter]
    apply congrArg List.length
    apply List.filter_congr
    intro r hr
    have ht : AOI.target_coord "Y" r = r.UNIT_INDEX_X := rfl
    have hs : AOI.slice_coord "Y" r = r.UNIT_INDEX_Y := rfl
    rw [ht, hs]
    rcases hy : decide (r.UNIT_INDEX_Y = slice_index) with _ | _
    · have : ¬ (r.UNIT_INDEX_Y = slice_index) := of_decide_eq_false hy
      simp [this]
    · have hyy : r.UNIT_INDEX_Y = slice_index := of_decide_eq_true hy
      simp [hyy]

theorem C5_cross_section_row_sum_amended_witness :
    0 < 1 ∧
    ((AOI.get_cross_section_matrix AOI.samplePanel "Y" 0 1 1 none).1.map List.sum).sum =
      ((AOI.cross_section_filtered AOI.samplePanel none).filter fun r =>
        decide (r.UNIT_INDEX_Y = 0 ∧ 0 ≤ r.UNIT_INDEX_X ∧
          r.UNIT_INDEX_X < ((2 * 1 : ℕ) : ℤ))).length :=
  ⟨Nat.one_pos, C5_cross_section_row_sum_amended AOI.samplePanel 0 1 1 Nat.one_pos Nat.one_pos⟩

theorem aoi_sorted_dedup_sorted (l : List ℤ) :
    (List.insertionSort (· ≤ ·) l.dedup).Sorted (· < ·) := by
  have hsorted := List.sorted_insertionSort (fun a b : ℤ => a ≤ b) l.dedup
  have hnodup : (List.insertionSort (fun a b : ℤ => a ≤ b) l.dedup).Nodup :=
    ((List.perm_insertionSort _ _).nodup_iff).mpr (List.nodup_dedup _)
  exact (hsorted.and hnodup).imp fun h => lt_of_le_of_ne h.1 h.2

theorem aoi_mem_sorted_dedup (l : List ℤ) (x : ℤ) :
    x ∈ List.insertionSort (· ≤ ·) l.dedup ↔ x ∈ l := by
  rw [(List.perm_insertionSort _ _).mem_iff, List.mem_dedup]

theorem aoi_sorted_dedup_ne_nil (l : List ℤ) (hl : l ≠ []) :
    List.insertionSort (· ≤ ·) l.dedup ≠ [] := by
  intro he
  rcases hx : l with _ | ⟨a, l'⟩
  · exact hl hx
  · have : a ∈ List.insertionSort (· ≤ ·) l.dedup :=
      (aoi_mem_sorted_dedup l a).mpr (hx ▸ List.mem_cons_self a l')
    rw [he] at this
    cases this

theorem aoi_head_min (h0 : ℤ) (t : List ℤ) (hs : (h0 :: t).Sorted (· < ·)) (a : ℤ)
    (ha : a ∈ h0 :: t) : h0 ≤ a := by
  rcases List.mem_cons.mp ha with rfl | hmem
  · exact le_refl a
  · exact le_of_lt ((List.sorted_cons.mp hs).1 a hmem)

/-- C4: every entry of the True-Defect Resolver's output map has
`first_killer_layer` equal to the smallest layer number among the remaining
True-Defect records at that `(physical_x, unit_index_y)` cell, and a
`defect_summary` rendered from `(layer, count)` pairs in strictly ascending
layer order, where each count is that layer's True-Defect count at the cell
and every layer present at the cell appears. -/
theorem C4_resolver_first_killer_and_summary (pd : AOI.PanelData)
    (ctx : Option AOI.FilterContext) (c0 : ℤ × ℤ) (e : AOI.ResolverEntry)
    (h : (c0, e) ∈ AOI.get_true_defect_coordinates pd ctx) :
    (∀ r ∈ AOI.resolver_cell_records (AOI.resolver_filtered pd ctx) c0,
      e.first_killer_layer ≤ r.LAYER_NUM) ∧
    (∃ r ∈ AOI.resolver_cell_records (AOI.resolver_filtered pd ctx) c0,
      r.LAYER_NUM = e.first_killer_layer) ∧
    (∃ pairs : List (ℤ × ℕ),
      e.defect_summary = String.intercalate ", " (pairs.map fun p =>
        "L" ++ toString p.1 ++ ": " ++ toString p.2) ∧
      (pairs.map Prod.fst).Sorted (· < ·) ∧
      (∀ p ∈ pairs, p.2 =
        ((AOI.resolver_cell_records (AOI.resolver_filtered pd ctx) c0).filter fun r =>
          decide (r.LAYER_NUM = p.1)).length) ∧
      (∀ p ∈ pairs, ∃ r ∈ AOI.resolver_cell_records (AOI.resolver_filtered pd ctx) c0,
        r.LAYER_NUM = p.1) ∧
      (∀ r ∈ AOI.resolver_cell_records (AOI.resolver_filtered pd ctx) c0,
        r.LAYER_NUM ∈ pairs.map Prod.fst)) := by
  unfold AOI.get_true_defect_coordinates at h
  rw [List.mem_map] at h
  obtain ⟨c, hc, hce⟩ := h
  have hcc : c = c0 := congrArg Prod.fst hce
  have hee : AOI.resolver_entry (AOI.resolver_filtered pd ctx) c = e := congrArg Prod.snd hce
  subst hcc
  subst hee
  have hmem_layers : ∀ x : ℤ, x ∈ AOI.resolver_cell_layers (AOI.resolver_filtered pd ctx) c ↔
      ∃ r ∈ AOI.resolver_cell_records (AOI.resolver_filtered pd ctx) c, r.LAYER_NUM = x := by
    intro x
    unfold AOI.resolver_cell_layers
    rw [aoi_mem_sorted_dedup]
    constructor
    · intro hx
      obtain ⟨r, hr, hrx⟩ := List.mem_map.mp hx
      exact ⟨r, hr, hrx⟩
    · intro ⟨r, hr, hrx⟩
      exact List.mem_map.mpr ⟨r, hr, hrx⟩
  have hsorted : (AOI.resolver_cell_layers (AOI.resolver_filtered pd ctx) c).Sorted
      (· < ·) := aoi_sorted_dedup_sorted _
  have hcellne : ∃ r, r ∈ AOI.resolver_cell_records (AOI.resolver_filtered pd ctx) c := by
    rw [List.mem_dedup] at hc
    obtain ⟨r, hr, hrc⟩ := List.mem_map.mp hc
    refine ⟨r, List.mem_filter.mpr ⟨hr, ?_⟩⟩
    rw [decide_eq_true_eq, ← hrc]
    exact ⟨rfl, rfl⟩
  have hlayersne : AOI.resolver_cell_layers (AOI.resolver_filtered pd ctx) c ≠ [] := by
    unfold AOI.resolver_cell_layers
    apply aoi_sorted_dedup_ne_nil
    obtain ⟨r, hr⟩ := hcellne
    intro he
    rw [List.map_eq_nil_iff] at he
    rw [he] at hr
    cases hr
  rcases hs : AOI.resolver_cell_layers (AOI.resolver_filtered pd ctx) c with _ | ⟨h0, t⟩
  · exact absurd hs hlayersne
  · have hsorted' := hs ▸ hsorted
    have hfirst : (AOI.resolver_entry (AOI.resolver_filtered pd ctx) c).first_killer_layer
        = h0 := by
      unfold AOI.resolver_entry
      rw [hs]
      rfl
    refine ⟨?_, ?_, ?_⟩
    · intro r hr
      rw [hfirst]
      apply aoi_head_min h0 t hsorted'
      rw [← hs, hmem_layers]
      exact ⟨r, hr, rfl⟩
    · rw [hfirst]
      have : h0 ∈ AOI.resolver_cell_layers (AOI.resolver_filtered pd ctx) c := by
        rw [hs]
        exact List.mem_cons_self h0 t
      exact (hmem_layers h0).mp this
    · refine ⟨(AOI.resolver_cell_layers (AOI.resolver_filtered pd ctx) c).map fun ln =>
        (ln, ((AOI.resolver_cell_records (AOI.resolver_filtered pd ctx) c).filter fun r =>
          decide (r.LAYER_NUM = ln)).length), ?_, ?_, ?_, ?_, ?_⟩
      · show (AOI.resolver_entry (AOI.resolver_filtered pd ctx) c).defect_summary = _
        unfold AOI.resolver_entry
        rw [List.map_map]
        rfl
      · rw [List.map_map]
        have : (Prod.fst ∘ fun ln : ℤ =>
            (ln, ((AOI.resolver_cell_records (AOI.resolver_filtered pd ctx) c).filter
              fun r => decide (r.LAYER_NUM = ln)).length)) = id := rfl
        rw [this, List.map_id]
        exact hsorted
      · intro p hp
        obtain ⟨ln, hln, hpe⟩ := List.mem_map.mp hp
        rw [← hpe]
      · intro p hp
        obtain ⟨ln, hln, hpe⟩ := List.mem_map.mp hp
        have := (hmem_layers ln).mp hln
        obtain ⟨r, hr, hrl⟩ := this
        refine ⟨r, hr, ?_⟩
        rw [hrl, ← hpe]
      · intro r hr
        rw [List.map_map]
        have : (Prod.fst ∘ fun ln : ℤ =>
            (ln, ((AOI.resolver_cell_records (AOI.resolver_filtered pd ctx) c).filter
              fun r => decide (r.LAYER_NUM = ln)).length)) = id := rfl
        rw [this, List.map_id, hmem_layers]
        exact ⟨r, hr, rfl⟩

theorem C4_resolver_first_killer_and_summary_witness :
    (((0, 0), ({ first_killer_layer := 1, defect_summary := "L1: 1, L2: 1" } :
        AOI.ResolverEntry)) ∈ AOI.get_true_defect_coordinates AOI.samplePanel none) ∧
    (∀ r ∈ AOI.resolver_cell_records (AOI.resolver_filtered AOI.samplePanel none) (0, 0),
      ({ first_killer_layer := 1, defect_summary := "L1: 1, L2: 1" } :
        AOI.ResolverEntry).first_killer_layer ≤ r.LAYER_NUM) :=
  ⟨by decide,
   (C4_resolver_first_killer_and_summary AOI.samplePanel none (0, 0) _ (by decide)).1⟩

theorem aoi_mem_sorted_dedup_str (l : List String) (x : String) :
    x ∈ List.insertionSort AOI.string_le l.dedup ↔ x ∈ l := by
  rw [(List.perm_insertionSort _ _).mem_iff, List.mem_dedup]

/-- C7-counterexample: the claim fails on the code.  With two equal-count
defect types arriving as `"B"` then `"A"`, the per-cell ranking emitted by
the aggregator is alphabetical (`A` before `B`), while the claim's
first-seen tie-break predicts `B` before `A` — the pandas pipeline groups by
`DEFECT_TYPE` with sorted keys before the stable count sort. -/
theorem C7_tie_break_counterexample :
    AOI.ranked_pairs [AOI.sampleRec 0 0 "B" "T" 1, AOI.sampleRec 0 0 "A" "T" 1] =
      [("A", 1), ("B", 1)] ∧
    AOI.ranked_pairs_first_seen_claim
      [AOI.sampleRec 0 0 "B" "T" 1, AOI.sampleRec 0 0 "A" "T" 1] = [("B", 1), ("A", 1)] ∧
    AOI.ranked_pairs [AOI.sampleRec 0 0 "B" "T" 1, AOI.sampleRec 0 0 "A" "T" 1] ≠
      AOI.ranked_pairs_first_seen_claim
        [AOI.sampleRec 0 0 "B" "T" 1, AOI.sampleRec 0 0 "A" "T" 1] := by
  refine ⟨by decide, by decide, by decide⟩

/-- C7-amended: for every non-empty cell the per-cell summary ranks the
cell's distinct defect types by descending count with ties broken by
ASCENDING TYPE STRING (alphabetical — not first-seen), keeps the top 3, and
reports the number of additional types when more than 3 are present: the
ranked list is a permutation of the cell's `(type, count)` pairs, sorted
under `rank_le` (higher count first, then type ascending), the type keys are
exactly the distinct types present with their exact per-cell counts, and the
tooltip appends `(+N types)` exactly when more than 3 distinct types
exist. -/
theorem C7_per_cell_summary_amended (cell : List AOI.Record) (h : cell ≠ []) :
    (AOI.ranked_pairs cell).Perm (AOI.type_count_pairs cell) ∧
    (AOI.ranked_pairs cell).Sorted AOI.rank_le ∧
    (∀ p ∈ AOI.type_count_pairs cell,
      p.2 = (cell.filter fun r => r.DEFECT_TYPE == p.1).length) ∧
    ((AOI.type_count_pairs cell).map Prod.fst).Nodup ∧
    (∀ t : String, t ∈ (AOI.type_count_pairs cell).map Prod.fst ↔
      ∃ r ∈ cell, r.DEFECT_TYPE = t) ∧
    (3 < (AOI.type_count_pairs cell).length →
      AOI.cell_tooltip cell =
        "<b>Total: " ++ toString cell.length ++ "</b><br>" ++
          String.intercalate "<br>" (((AOI.ranked_pairs cell).take 3).map fun p =>
            p.1 ++ ": " ++ toString p.2) ++
          "<br>... (+" ++ toString ((AOI.type_count_pairs cell).length - 3) ++ " types)") ∧
    ((AOI.type_count_pairs cell).length ≤ 3 →
      AOI.cell_tooltip cell =
        "<b>Total: " ++ toString cell.length ++ "</b><br>" ++
          String.intercalate "<br>" (((AOI.ranked_pairs cell).take 3).map fun p =>
            p.1 ++ ": " ++ toString p.2)) := by
  have hkeys : (AOI.type_count_pairs cell).map Prod.fst = AOI.cell_types cell := by
    unfold AOI.type_count_pairs
    rw [List.map_map]
    have : (Prod.fst ∘ fun t : String =>
        (t, (cell.filter fun r => r.DEFECT_TYPE == t).length)) = id := rfl
    rw [this, List.map_id]
  refine ⟨List.perm_insertionSort _ _, List.sorted_insertionSort _ _, ?_, ?_, ?_, ?_, ?_⟩
  · intro p hp
    obtain ⟨t, ht, hpe⟩ := List.mem_map.mp hp
    rw [← hpe]
  · rw [hkeys]
    unfold AOI.cell_types
    exact ((List.perm_insertionSort _ _).nodup_iff).mpr (List.nodup_dedup _)
  · intro t
    rw [hkeys]
    unfold AOI.cell_types
    rw [aoi_mem_sorted_dedup_str]
    constructor
    · intro ht
      obtain ⟨r, hr, hrt⟩ := List.mem_map.mp ht
      exact ⟨r, hr, hrt⟩
    · intro ⟨r, hr, hrt⟩
      exact List.mem_map.mpr ⟨r, hr, hrt⟩
  · intro hgt
    unfold AOI.cell_tooltip
    rw [if_pos hgt]
  · intro hle
    unfold AOI.cell_tooltip
    rw [if_neg (by omega)]

theorem C7_per_cell_summary_amended_witness :
    ([AOI.sampleRec 0 0 "Nick" "T" 1] : List AOI.Record) ≠ [] ∧
    (AOI.ranked_pairs [AOI.sampleRec 0 0 "Nick" "T" 1]).Perm
      (AOI.type_count_pairs [AOI.sampleRec 0 0 "Nick" "T" 1]) :=
  ⟨by decide, (C7_per_cell_summary_amended [AOI.sampleRec 0 0 "Nick" "T" 1] (by decide)).1⟩

/-- C2: for every non-negative `(col_index, row_index)` the unit origin follows
`margin + quadrant_offset + local * unit_size + local * gap_unit`, with
`quadrant_offset_x = 0` on the left half and `quad_width + gap_mid` on the
right half, `unit_width = (quad_width - (cols - 1) * gap_unit) / cols` for
positive `cols`, and the `cols ≤ 0` / `rows ≤ 0` guard yields a unit size of
`0` (the computation is total, no division-by-zero error). -/
theorem C2_unit_origin_formula (p : AOI.LayoutParams) (col_index row_index : ℤ)
    (hc : 0 ≤ col_index) (hr : 0 ≤ row_index) :
    (p.get_unit_origin col_index row_index).1 =
      p.margin_x + (if col_index < p.panel_cols then 0 else p.quad_width + p.gap_mid) +
        ((if col_index < p.panel_cols then col_index else col_index - p.panel_cols : ℤ) : ℚ) *
          p.unit_width +
        ((if col_index < p.panel_cols then col_index else col_index - p.panel_cols : ℤ) : ℚ) *
          p.gap_unit ∧
    (p.get_unit_origin col_index row_index).2 =
      p.margin_y + (if row_index < p.panel_rows then 0 else p.quad_height + p.gap_mid) +
        ((if row_index < p.panel_rows then row_index else row_index - p.panel_rows : ℤ) : ℚ) *
          p.unit_height +
        ((if row_index < p.panel_rows then row_index else row_index - p.panel_rows : ℤ) : ℚ) *
          p.gap_unit ∧
    (0 < p.panel_cols →
      p.unit_width = (p.quad_width - ((p.panel_cols : ℚ) - 1) * p.gap_unit) / (p.panel_cols : ℚ)) ∧
    (p.panel_cols ≤ 0 → p.unit_width = 0) ∧
    (0 < p.panel_rows →
      p.unit_height =
        (p.quad_height - ((p.panel_rows : ℚ) - 1) * p.gap_unit) / (p.panel_rows : ℚ)) ∧
    (p.panel_rows ≤ 0 → p.unit_height = 0) := by
  refine ⟨?_, ?_, ?_, ?_, ?_, ?_⟩
  · simp only [AOI.LayoutParams.get_unit_origin]
    split <;> push_cast <;> ring
  · simp only [AOI.LayoutParams.get_unit_origin]
    split <;> push_cast <;> ring
  · intro h
    simp [AOI.LayoutParams.unit_width, not_le.mpr h, h.not_le]
  · intro h
    simp [AOI.LayoutParams.unit_width, h]
  · intro h
    simp [AOI.LayoutParams.unit_height, not_le.mpr h, h.not_le]
  · intro h
    simp [AOI.LayoutParams.unit_height, h]

theorem C2_unit_origin_formula_witness :
    (0 : ℤ) ≤ 3 ∧ (0 : ℤ) ≤ 1 ∧
      ((AOI.LayoutParams.mk 2 2 235 235 (27/2) 15 3 (1/4)).get_unit_origin 3 1).1 =
        (27/2) + (235 + 3) +
          ((if (3 : ℤ) < 2 then (3 : ℤ) else 3 - 2 : ℤ) : ℚ) *
            (AOI.LayoutParams.mk 2 2 235 235 (27/2) 15 3 (1/4)).unit_width +
          ((if (3 : ℤ) < 2 then (3 : ℤ) else 3 - 2 : ℤ) : ℚ) * (1/4) := by
  have h := C2_unit_origin_formula (AOI.LayoutParams.mk 2 2 235 235 (27/2) 15 3 (1/4)) 3 1
    (by decide) (by decide)
  refine ⟨by decide, by decide, ?_⟩
  have h1 := h.1
  norm_num at h1 ⊢
  rw [h1]

/-- C3: the Back-side mirror map `x ↦ (2·cols − 1) − x` is an involution on
`[0, 2·cols)`, and Front-side records keep `physical_x = unit_index_x`. -/
theorem C3_mirror_involution (cols x : ℤ) (hc : 0 < cols) (h0 : 0 ≤ x) (h2 : x < 2 * cols) :
    AOI.physical_x_of cols AOI.Side.B (AOI.physical_x_of cols AOI.Side.B x) = x ∧
    AOI.physical_x_of cols AOI.Side.F x = x := by
  constructor
  · simp only [AOI.physical_x_of]
    ring
  · rfl

theorem C3_mirror_involution_witness :
    (0 : ℤ) < 3 ∧ (0 : ℤ) ≤ 2 ∧ (2 : ℤ) < 2 * 3 ∧
      AOI.physical_x_of 3 AOI.Side.B (AOI.physical_x_of 3 AOI.Side.B 2) = 2 ∧
      AOI.physical_x_of 3 AOI.Side.F 2 = 2 :=
  ⟨by decide, by decide, by decide, C3_mirror_involution 3 2 (by decide) (by decide) (by decide)⟩
